import Mathlib

/-!
A shallow embedding of the librudp per-peer protocol engine (peer.c), the
server demultiplexer (server.c) and the client shell (client.c), together
with theorems about packet classification, acknowledgement processing,
service scheduling and the handshake paths.

Machine integers are modelled as `Nat` reduced modulo 2^16 where the C code
uses `uint16_t`, and as `Int` where the C code uses `rudp_time_t`
(`int64_t`); timestamps stay well inside the 64-bit range so no modular
reduction is applied to them.
-/

namespace Rudp

/-- Reduction modulo 2^16, the behaviour of a C cast to `uint16_t`. -/
def u16 (n : Nat) : Nat := n % 65536

/-- Reinterpretation of a 16-bit value as a signed `int16_t`. -/
def toI16 (n : Nat) : Int :=
  if u16 n < 32768 then (u16 n : Int) else (u16 n : Int) - 65536

/-- The C idiom `(int16_t)(a - b)` on two `uint16_t` operands: modular
16-bit difference reinterpreted as signed. -/
def d16 (a b : Nat) : Int := toI16 (a + 65536 - u16 b)

/- Protocol constants from peer.c and packet.h. -/

def ACTION_TIMEOUT : Int := 5000
def DROP_TIMEOUT : Int := 10000
def MAX_RTO : Int := 3000

def RUDP_CMD_NOOP : Nat := 0
def RUDP_CMD_CLOSE : Nat := 1
def RUDP_CMD_CONN_REQ : Nat := 2
def RUDP_CMD_CONN_RSP : Nat := 3
def RUDP_CMD_PING : Nat := 4
def RUDP_CMD_PONG : Nat := 5
def RUDP_CMD_APP : Nat := 0x10

/-- Value of `sizeof(struct rudp_packet_header)`: 8 bytes. -/
def headerSize : Nat := 8

/-- Value of `sizeof(struct rudp_packet_conn_req)` and of
`sizeof(struct rudp_packet_conn_rsp)`:
header plus a 4-byte word. -/
def connReqSize : Nat := 12

/-- The errno value `EINVAL` returned by `rudp_peer_incoming_packet` on a
broken ACK. -/
def EINVAL : Nat := 22

/-- A decoded packet. The three `opt` flag bits of the C header are carried
as booleans; `len` is the total datagram length (`pc->len`), `payload` the
bytes following the 8-byte header. -/
structure Packet where
  command : Nat
  optReliable : Bool
  optAck : Bool
  optRetransmitted : Bool
  reliable_ack : Nat
  reliable : Nat
  unreliable : Nat
  payload : List Nat
  len : Nat
  deriving Repr, DecidableEq

/-- The C `enum peer_state` from peer.c, in declaration order. -/
inductive PeerState where
  | NEW
  | RUN
  | CONNECTING
  | DEAD
  deriving Repr, DecidableEq

/-- The C `enum packet_state` from peer.c. -/
inductive PacketState where
  | SEQUENCED
  | UNSEQUENCED
  | RETRANSMITTED
  deriving Repr, DecidableEq

/-- The modelled fields of `struct rudp_peer`. The send queue holds the
queued packets in order; external references (address, endpoint, event
source) are out of scope. -/
structure Peer where
  abs_timeout_deadline : Int
  last_out_time : Int
  srtt : Int
  rttvar : Int
  rto : Int
  in_seq_reliable : Nat
  in_seq_unreliable : Nat
  out_seq_reliable : Nat
  out_seq_unreliable : Nat
  out_seq_acked : Nat
  must_ack : Bool
  sendto_err : Nat
  state : PeerState
  sendq : List Packet
  deriving Repr, DecidableEq

/-- Model of `rudp_peer_reset`: the peer state installed at init/reset time. `now`
is `rudp_timestamp()` and `rnd` the `rudp_random` draw for the initial
outgoing sequence number. -/
def rudp_peer_reset (now : Int) (rnd : Nat) : Peer :=
  { abs_timeout_deadline := now + DROP_TIMEOUT
    last_out_time := now
    srtt := 100
    rttvar := 50
    rto := MAX_RTO
    in_seq_reliable := 65535
    in_seq_unreliable := 0
    out_seq_reliable := u16 rnd
    out_seq_unreliable := 0
    out_seq_acked := u16 (u16 rnd + 65535)
    must_ack := false
    sendto_err := 0
    state := PeerState.NEW
    sendq := [] }

/-- Model of `peer_update_rtt`: RFC-style smoothing, with C truncating division and
the `MAX_RTO` cap on the resulting `rto`. -/
def peer_update_rtt (p : Peer) (last_rtt : Int) : Peer :=
  let rttvar := Int.tdiv (3 * p.rttvar + (p.srtt - last_rtt).natAbs) 4
  let srtt := Int.tdiv (7 * p.srtt + last_rtt) 8
  let rto := if srtt > MAX_RTO then MAX_RTO else srtt
  { p with rttvar := rttvar, srtt := srtt, rto := rto }

/-- Model of `peer_rto_backoff`: double the retransmit timeout, capped at `MAX_RTO`. -/
def peer_rto_backoff (rto : Int) : Int :=
  let r := rto * 2
  if r > MAX_RTO then MAX_RTO else r

/-- Model of `peer_analyse_reliable`: classify an incoming reliable sequence number
against `in_seq_reliable`, updating the peer on the sequenced case. -/
def peer_analyse_reliable (p : Peer) (reliable_seq : Nat) :
    PacketState × Peer :=
  if p.in_seq_reliable = reliable_seq then
    (PacketState.RETRANSMITTED, p)
  else if u16 (p.in_seq_reliable + 1) ≠ reliable_seq then
    (PacketState.UNSEQUENCED, p)
  else
    (PacketState.SEQUENCED,
      { p with in_seq_reliable := reliable_seq, in_seq_unreliable := 0 })

/-- Model of `peer_analyse_unreliable`: classify an incoming unreliable packet by its
(reliable epoch, unreliable sequence) pair. -/
def peer_analyse_unreliable (p : Peer) (reliable_seq unreliable_seq : Nat) :
    PacketState × Peer :=
  if p.in_seq_reliable ≠ reliable_seq then
    (PacketState.UNSEQUENCED, p)
  else if d16 unreliable_seq p.in_seq_unreliable ≤ 0 then
    (PacketState.UNSEQUENCED, p)
  else
    (PacketState.SEQUENCED, { p with in_seq_unreliable := unreliable_seq })

/-- The send-queue walk inside `peer_handle_ack`: drop head entries that are
reliable, already transmitted, and no newer than `ack`; stop at the first
entry failing any of those tests. -/
def ackDropWalk (ack : Nat) : List Packet → List Packet
  | [] => []
  | pkt :: rest =>
    if ¬ (pkt.optReliable = true ∧ pkt.optRetransmitted = true) then
      pkt :: rest
    else if d16 pkt.reliable ack > 0 then
      pkt :: rest
    else
      ackDropWalk ack rest

/-- Model of `peer_handle_ack`: returns `true` (the C `1`) when the ack is broken
(past `out_seq_reliable`), together with the updated peer. -/
def peer_handle_ack (p : Peer) (ack : Nat) : Bool × Peer :=
  if d16 ack p.out_seq_acked < 0 then
    (false, p)
  else if d16 ack p.out_seq_reliable > 0 then
    (true, p)
  else
    (false, { p with out_seq_acked := ack, sendq := ackDropWalk ack p.sendq })

/-- Little-endian byte list of an `int64_t` value, as `memcpy` of a
`rudp_time_t` produces on the library's little-endian hosts. -/
def encodeTime (t : Int) : List Nat :=
  let n := (t % 18446744073709551616).toNat
  (List.range 8).map (fun i => n / 2 ^ (8 * i) % 256)

/-- Reading an `int64_t` back out of the first 8 payload bytes. -/
def decodeTime (l : List Nat) : Int :=
  let n : Nat := (l.take 8).foldr (fun b acc => b % 256 + 256 * acc) 0
  if n < 9223372036854775808 then (n : Int) else (n : Int) - 18446744073709551616

/-- Model of `rudp_peer_send_unreliable`: stamp the header with the current reliable
epoch and the incremented unreliable sequence, clear all flags, and append
to the send queue. `reliable_ack` is stamped at transmit time by
`peer_send_queue`; it is left 0 here. -/
def rudp_peer_send_unreliable (p : Peer) (cmd : Nat) (payload : List Nat)
    (len : Nat) : Peer :=
  let unrel := u16 (p.out_seq_unreliable + 1)
  let pkt : Packet :=
    { command := cmd
      optReliable := false
      optAck := false
      optRetransmitted := false
      reliable_ack := 0
      reliable := p.out_seq_reliable
      unreliable := unrel
      payload := payload
      len := len }
  { p with out_seq_unreliable := unrel, sendq := p.sendq ++ [pkt] }

/-- Model of `rudp_peer_send_reliable`: stamp the header with the incremented
reliable sequence, reset the unreliable counter, set the RELIABLE flag, and
append to the send queue. -/
def rudp_peer_send_reliable (p : Peer) (cmd : Nat) (payload : List Nat)
    (len : Nat) : Peer :=
  let rel := u16 (p.out_seq_reliable + 1)
  let pkt : Packet :=
    { command := cmd
      optReliable := true
      optAck := false
      optRetransmitted := false
      reliable_ack := 0
      reliable := rel
      unreliable := 0
      payload := payload
      len := len }
  { p with out_seq_reliable := rel, out_seq_unreliable := 0,
           sendq := p.sendq ++ [pkt] }

/-- Model of `peer_ping`: enqueue a reliable PING carrying the current timestamp. -/
def peer_ping (now : Int) (p : Peer) : Peer :=
  rudp_peer_send_reliable p RUDP_CMD_PING (encodeTime now) (headerSize + 8)

/-- Model of `peer_handle_ping`: echo the payload back as an unreliable PONG, unless
the incoming PING was retransmitted. -/
def peer_handle_ping (p : Peer) (inPkt : Packet) : Peer :=
  if inPkt.optRetransmitted then p
  else
    rudp_peer_send_unreliable p RUDP_CMD_PONG
      (inPkt.payload.take (inPkt.len - headerSize)) inPkt.len

/-- Model of `peer_handle_pong`: feed `now - echoed timestamp` into the RTT
estimators. -/
def peer_handle_pong (now : Int) (p : Peer) (pc : Packet) : Peer :=
  peer_update_rtt p (now - decodeTime pc.payload)

/-- Model of `peer_post_ack`: flag that the next outbound packet must carry an ACK;
when the send queue is empty, enqueue a NOOP carrier (allocated at
conn-rsp size; its 4 payload bytes are uninitialized in the source and
modelled as zeros). -/
def peer_post_ack (p : Peer) : Peer :=
  if p.sendq = [] then
    rudp_peer_send_unreliable { p with must_ack := true } RUDP_CMD_NOOP
      (List.replicate 4 0) connReqSize
  else
    { p with must_ack := true }

/-- Model of `peer_handle_connreq`: reply with an unreliable CONN_RSP carrying
`accepted = htonl(1)`. -/
def peer_handle_connreq (p : Peer) : Peer :=
  rudp_peer_send_unreliable p RUDP_CMD_CONN_RSP [0, 0, 0, 1] connReqSize

/-- Result of `rudp_peer_incoming_packet`: the returned error code, the
updated peer, and whether the `dropped` and `handle_packet` callbacks
fired during processing. -/
structure IncomingResult where
  err : Nat
  peer : Peer
  droppedFired : Bool
  appDelivered : Bool
  deriving Repr, DecidableEq

/-- The common tail of `rudp_peer_incoming_packet`: post an ACK when the
incoming packet was reliable, then return success. -/
def peer_incoming_finish (p : Peer) (pkt : Packet) (dropped app : Bool) :
    IncomingResult :=
  let pf := if pkt.optReliable then peer_post_ack p else p
  { err := 0, peer := pf, droppedFired := dropped, appDelivered := app }

/-- The body of `rudp_peer_incoming_packet` after the ACK-flag block:
classification, dispatch by classification and command, and the trailing
ACK post for reliable packets. `p1` is the peer as left by the ACK
processing; the drop-deadline refresh leaves `state` untouched, so the
state guards read it from the classification result `p2` directly. -/
def peer_incoming_classified (now : Int) (p1 : Peer) (pkt : Packet) :
    IncomingResult :=
  match (if pkt.optReliable then peer_analyse_reliable p1 pkt.reliable
         else peer_analyse_unreliable p1 pkt.reliable pkt.unreliable) with
  | (PacketState.UNSEQUENCED, p2) =>
    peer_incoming_finish
      (if p2.state = PeerState.NEW ∧ pkt.command = RUDP_CMD_CONN_REQ then
        { peer_handle_connreq p2 with
            in_seq_reliable := pkt.reliable, state := PeerState.RUN }
       else if p2.state = PeerState.CONNECTING
               ∧ pkt.command = RUDP_CMD_CONN_RSP then
        { (peer_handle_ack { p2 with in_seq_reliable := pkt.reliable }
            pkt.reliable_ack).2 with state := PeerState.RUN }
       else
        p2)
      pkt false false
  | (PacketState.RETRANSMITTED, p2) =>
    peer_incoming_finish
      { p2 with abs_timeout_deadline := now + DROP_TIMEOUT } pkt false false
  | (PacketState.SEQUENCED, p2) =>
    if pkt.command = RUDP_CMD_CLOSE then
      { err := 0,
        peer := { p2 with
                    abs_timeout_deadline := now + DROP_TIMEOUT
                    state := PeerState.DEAD },
        droppedFired := true, appDelivered := false }
    else
      peer_incoming_finish
        (if pkt.command = RUDP_CMD_PING then
          (if p2.state = PeerState.RUN then
            peer_handle_ping
              { p2 with abs_timeout_deadline := now + DROP_TIMEOUT } pkt
           else { p2 with abs_timeout_deadline := now + DROP_TIMEOUT })
         else if pkt.command = RUDP_CMD_PONG then
          (if p2.state = PeerState.RUN then
            peer_handle_pong now
              { p2 with abs_timeout_deadline := now + DROP_TIMEOUT } pkt
           else { p2 with abs_timeout_deadline := now + DROP_TIMEOUT })
         else { p2 with abs_timeout_deadline := now + DROP_TIMEOUT })
        pkt false
        (decide (p2.state = PeerState.RUN ∧ RUDP_CMD_APP ≤ pkt.command))

/-- Model of `rudp_peer_incoming_packet`: the ACK-flag block (rejecting the packet
with EINVAL when the ack is broken), followed by the classified
dispatch. -/
def rudp_peer_incoming_packet (now : Int) (p : Peer) (pkt : Packet) :
    IncomingResult :=
  let ackRes :=
    if pkt.optAck then peer_handle_ack p pkt.reliable_ack else (false, p)
  if ackRes.1 then
    { err := EINVAL, peer := ackRes.2, droppedFired := false,
      appDelivered := false }
  else
    peer_incoming_classified now ackRes.2 pkt

/-- The peer as left by the ACK stage of `rudp_peer_incoming_packet` when
the ack was not broken. -/
def postAckPeer (p : Peer) (pkt : Packet) : Peer :=
  if pkt.optAck then (peer_handle_ack p pkt.reliable_ack).2 else p

/-- Model of `peer_service_schedule`: the timeout delta handed to `ela_set_timeout`.
The send-queue head (when present) selects the base delay, which is then
clipped by the drop deadline and raised to a 1 ms minimum. -/
def peer_service_schedule_delta (now : Int) (p : Peer) : Int :=
  let delta :=
    match p.sendq with
    | [] => ACTION_TIMEOUT
    | head :: _ =>
      if head.optRetransmitted then now - p.last_out_time + p.rto else 0
  let to_delta := p.abs_timeout_deadline - now
  let delta1 := if to_delta < delta then to_delta else delta
  if delta1 ≤ 0 then 1 else delta1

/-- The absolute wake time scheduled by `peer_service_schedule` when run at
time `now`. -/
def scheduleWake (now : Int) (p : Peer) : Int :=
  now + peer_service_schedule_delta now p

/-- ACK stamping applied to each entry by `peer_send_queue` before the raw
send. -/
def stampAck (mustAck : Bool) (inRel : Nat) (pkt : Packet) : Packet :=
  if mustAck then { pkt with optAck := true, reliable_ack := inRel }
  else { pkt with reliable_ack := 0 }

/-- Outcome of the `peer_send_queue` walk: the remaining queue, the backed
off retransmit timeout, and the datagrams transmitted (in order). -/
structure WalkRes where
  queue : List Packet
  rto : Int
  sent : List Packet
  deriving Repr, DecidableEq

/-- The `peer_send_queue` traversal: stamp and transmit each entry; a
reliable entry already retransmitted causes an RTO backoff and ends the
walk; a fresh reliable entry is marked retransmitted and kept; an
unreliable entry is removed after transmit. -/
def sendWalk (mustAck : Bool) (inRel : Nat) (rto : Int) :
    List Packet → WalkRes
  | [] => { queue := [], rto := rto, sent := [] }
  | pkt :: rest =>
    let s := stampAck mustAck inRel pkt
    if s.optReliable = true ∧ s.optRetransmitted = true then
      { queue := s :: rest, rto := peer_rto_backoff rto, sent := [s] }
    else if s.optReliable then
      let r := sendWalk mustAck inRel rto rest
      { queue := { s with optRetransmitted := true } :: r.queue,
        rto := r.rto, sent := s :: r.sent }
    else
      let r := sendWalk mustAck inRel rto rest
      { queue := r.queue, rto := r.rto, sent := s :: r.sent }

/-- Model of `peer_send_queue`: run the walk; every transmission updates
`last_out_time` through `peer_send_raw`. -/
def peer_send_queue (now : Int) (p : Peer) : Peer × List Packet :=
  let w := sendWalk p.must_ack p.in_seq_reliable p.rto p.sendq
  let p1 := { p with sendq := w.queue, rto := w.rto }
  if w.sent = [] then (p1, [])
  else ({ p1 with last_out_time := now }, w.sent)

/-- Outcome of one `peer_service` invocation. -/
structure ServiceResult where
  peer : Peer
  droppedFired : Bool
  sent : List Packet
  pinged : Bool
  deriving Repr, DecidableEq

/-- Model of `peer_service`: past the drop deadline, invoke the dropped handler and
stop; otherwise ping on idle timeout and flush the send queue. -/
def peer_service (now : Int) (p : Peer) : ServiceResult :=
  if p.abs_timeout_deadline < now then
    { peer := p, droppedFired := true, sent := [], pinged := false }
  else
    let pinged := p.sendq = [] ∧ now - p.last_out_time > ACTION_TIMEOUT
    let p1 := if pinged then peer_ping now p else p
    let sq := peer_send_queue now p1
    { peer := sq.1, droppedFired := false, sent := sq.2,
      pinged := decide pinged }

/-- The modelled fields of `struct rudp_client`: the single peer engine and
the `connected` flag. -/
structure Client where
  peer : Peer
  connected : Bool
  deriving Repr, DecidableEq

/-- Outcome of `client_handle_endpoint_packet`: the updated client and
which application callbacks fired. -/
structure ClientResult where
  client : Client
  connectedFired : Bool
  serverLostFired : Bool
  deriving Repr, DecidableEq

/-- Model of `client_handle_endpoint_packet`: forward the datagram to the peer
engine; if the engine reported the peer dropped, `client_peer_dropped`
already cleared the `connected` flag, deinitialized the peer (leaving it
in the reset state, with `rnd` the fresh random sequence draw) and fired
`server_lost`; afterwards, a zero return with the flag still clear fires
the `connected` handler and sets the flag. -/
def client_handle_endpoint_packet (now : Int) (rnd : Nat) (c : Client)
    (pkt : Packet) : ClientResult :=
  let r := rudp_peer_incoming_packet now c.peer pkt
  let peer1 := if r.droppedFired then rudp_peer_reset now rnd else r.peer
  let conn1 := if r.droppedFired then false else c.connected
  if r.err = 0 ∧ conn1 = false then
    { client := { peer := peer1, connected := true },
      connectedFired := true, serverLostFired := r.droppedFired }
  else
    { client := { peer := peer1, connected := conn1 },
      connectedFired := false, serverLostFired := r.droppedFired }

/-- Model of `rudp_server_peer_lookup`: first peer in the collection whose address
matches; addresses are abstracted to naturals with decidable equality. -/
def rudp_server_peer_lookup (peers : List (Nat × Peer)) (addr : Nat) :
    Option Peer :=
  match peers with
  | [] => none
  | e :: rest =>
    if e.1 = addr then some e.2 else rudp_server_peer_lookup rest addr

/-- In-place mutation of the engine stored under `addr`. -/
def updatePeer (peers : List (Nat × Peer)) (addr : Nat) (p : Peer) :
    List (Nat × Peer) :=
  peers.map (fun e => if e.1 = addr then (e.1, p) else e)

/-- Model of `server_peer_forget`: remove the engine stored under `addr` from the
collection. -/
def forgetPeer (peers : List (Nat × Peer)) (addr : Nat) :
    List (Nat × Peer) :=
  peers.filter (fun e => ¬ e.1 = addr)

/-- Outcome of `server_handle_endpoint_packet`: the updated collection and
which application callbacks fired; `created` records that a fresh engine
was constructed for an unknown source (it may have been forgotten again
on rejection). -/
structure DemuxResult where
  peers : List (Nat × Peer)
  peerNewFired : Bool
  peerDroppedFired : Bool
  created : Bool
  deriving Repr, DecidableEq

/-- Model of `server_handle_endpoint_packet`: look the source address up; known
sources are forwarded to their engine (whose `dropped` handler forgets
it); unknown sources must carry an exactly-sized CONN_REQ, which is fed
to a freshly constructed engine — kept and announced through `peer_new`
on success, forgotten on failure. Any other unknown-source datagram is
discarded. -/
def server_handle_endpoint_packet (now : Int) (rnd : Nat)
    (peers : List (Nat × Peer)) (addr : Nat) (pkt : Packet) : DemuxResult :=
  match rudp_server_peer_lookup peers addr with
  | some p =>
    let r := rudp_peer_incoming_packet now p pkt
    if r.droppedFired then
      { peers := forgetPeer peers addr, peerNewFired := false,
        peerDroppedFired := true, created := false }
    else
      { peers := updatePeer peers addr r.peer, peerNewFired := false,
        peerDroppedFired := false, created := false }
  | none =>
    if pkt.len ≠ connReqSize ∨ pkt.command ≠ RUDP_CMD_CONN_REQ then
      { peers := peers, peerNewFired := false,
        peerDroppedFired := false, created := false }
    else
      let r := rudp_peer_incoming_packet now (rudp_peer_reset now rnd) pkt
      if r.err = 0 then
        { peers := (addr, r.peer) :: peers, peerNewFired := true,
          peerDroppedFired := false, created := true }
      else
        { peers := peers, peerNewFired := false,
          peerDroppedFired := false, created := true }

/-- The removal predicate of the `peer_handle_ack` queue walk: reliable,
already transmitted at least once, and no newer than `ack` under signed
16-bit comparison. -/
def ackRemovable (ack : Nat) (pkt : Packet) : Prop :=
  pkt.optReliable = true ∧ pkt.optRetransmitted = true ∧ d16 pkt.reliable ack ≤ 0

instance (ack : Nat) (pkt : Packet) : Decidable (ackRemovable ack pkt) := by
  unfold ackRemovable; infer_instance

/- Concrete example data used by witnesses and counterexamples. -/

/-- A queued reliable packet with sequence 5 that has been transmitted. -/
def exField5 : Packet :=
  { command := RUDP_CMD_APP, optReliable := true, optAck := false,
    optRetransmitted := true, reliable_ack := 0, reliable := 5,
    unreliable := 0, payload := [1], len := 9 }

/-- A queued reliable packet with sequence 6 not yet transmitted. -/
def exField6 : Packet :=
  { command := RUDP_CMD_APP, optReliable := true, optAck := false,
    optRetransmitted := false, reliable_ack := 0, reliable := 6,
    unreliable := 0, payload := [2], len := 9 }

/-- A running peer with two queued reliable packets, used for the ack-walk
witness. -/
def exAckPeer : Peer :=
  { rudp_peer_reset 0 0 with
      state := PeerState.RUN, out_seq_acked := 4, out_seq_reliable := 6,
      sendq := [exField5, exField6] }

/-- A running peer whose acked/sent window is `[0, 0x4000]`. -/
def exStalePeer : Peer :=
  { rudp_peer_reset 0 0 with
      state := PeerState.RUN, out_seq_acked := 0, out_seq_reliable := 0x4000 }

/-- An unreliable NOOP whose piggybacked ack 0x8001 is both behind
`out_acked = 0` and ahead of `out_rel = 0x4000` under signed 16-bit
deltas. -/
def exStalePkt : Packet :=
  { command := RUDP_CMD_NOOP, optReliable := false, optAck := true,
    optRetransmitted := false, reliable_ack := 0x8001, reliable := 77,
    unreliable := 1, payload := [], len := 8 }

/-- A running peer whose drop deadline (5 ms) has already passed at the
times used by the C4 example, with a queued untransmitted packet. -/
def exDeadlinePeer : Peer :=
  { rudp_peer_reset 0 0 with
      state := PeerState.RUN, abs_timeout_deadline := 5, sendq := [exField6] }

/-- A queued reliable entry already transmitted once, sitting at the head
of the queue for the scheduling example. -/
def exRetransHead : Packet :=
  { command := RUDP_CMD_APP, optReliable := true, optAck := false,
    optRetransmitted := true, reliable_ack := 0, reliable := 1,
    unreliable := 0, payload := [], len := 8 }

/-- A peer whose queue head has been transmitted: `last_out_time = 0`,
`rto = 3000`, drop deadline far away. -/
def exSchedPeer : Peer :=
  { rudp_peer_reset 0 0 with
      state := PeerState.RUN, sendq := [exRetransHead],
      abs_timeout_deadline := 10000 }

/-- A client shell that has sent its CONN_REQ and is waiting in
CONNECTING with the `connected` flag clear. -/
def exConnectingClient : Client :=
  { peer := { rudp_peer_reset 0 7 with state := PeerState.CONNECTING },
    connected := false }

/-- An unreliable NOOP from an arbitrary source: its reliable epoch 3 does
not match the connecting peer's `in_rel`, so the engine ignores it
(UNSEQUENCED) yet returns success. -/
def exStrayNoop : Packet :=
  { command := RUDP_CMD_NOOP, optReliable := false, optAck := false,
    optRetransmitted := false, reliable_ack := 0, reliable := 3,
    unreliable := 1, payload := [], len := 8 }

/-- A well-formed reliable CONN_REQ datagram: exact conn-req size and
command. -/
def exConnReq : Packet :=
  { command := RUDP_CMD_CONN_REQ, optReliable := true, optAck := false,
    optRetransmitted := false, reliable_ack := 0, reliable := 100,
    unreliable := 0, payload := [0, 0, 0, 0], len := connReqSize }

/-- A running peer with `in_rel = 10` and an empty send queue, target of
the PING examples. -/
def exRunPeer : Peer :=
  { rudp_peer_reset 0 0 with
      state := PeerState.RUN, in_seq_reliable := 10,
      out_seq_acked := 9, out_seq_reliable := 10 }

/-- A sequenced reliable PING (sequence 11 = `in_rel + 1`) carrying an
8-byte timestamp payload. -/
def exPing : Packet :=
  { command := RUDP_CMD_PING, optReliable := true, optAck := false,
    optRetransmitted := false, reliable_ack := 0, reliable := 11,
    unreliable := 0, payload := [1, 2, 3, 4, 5, 6, 7, 8], len := 16 }

/-- The same PING duplicated by retransmission. -/
def exPingRetrans : Packet :=
  { exPing with optRetransmitted := true }

/-- A reliable NOOP whose piggybacked ack 100 lies past `out_rel = 10`:
the whole packet is rejected as broken before any ack is posted. -/
def exBrokenAckPkt : Packet :=
  { command := RUDP_CMD_NOOP, optReliable := true, optAck := true,
    optRetransmitted := false, reliable_ack := 100, reliable := 11,
    unreliable := 0, payload := [], len := 8 }

/-- A sequenced reliable NOOP (sequence 11 = `in_rel + 1`). -/
def exReliableNoop : Packet :=
  { command := RUDP_CMD_NOOP, optReliable := true, optAck := false,
    optRetransmitted := false, reliable_ack := 0, reliable := 11,
    unreliable := 0, payload := [], len := 8 }

end Rudp

namespace Rudp

/- Helper lemmas. -/

theorem analyse_rel_retrans (p : Peer) (s : Nat) (h : p.in_seq_reliable = s) :
    peer_analyse_reliable p s = (PacketState.RETRANSMITTED, p) := by
  unfold peer_analyse_reliable
  rw [if_pos h]

theorem analyse_rel_seq (p : Peer) (s : Nat) (h1 : p.in_seq_reliable ≠ s)
    (h2 : u16 (p.in_seq_reliable + 1) = s) :
    peer_analyse_reliable p s =
      (PacketState.SEQUENCED,
        { p with in_seq_reliable := s, in_seq_unreliable := 0 }) := by
  unfold peer_analyse_reliable
  rw [if_neg h1, if_neg (by simp [h2])]

theorem analyse_rel_unseq (p : Peer) (s : Nat) (h1 : p.in_seq_reliable ≠ s)
    (h2 : u16 (p.in_seq_reliable + 1) ≠ s) :
    peer_analyse_reliable p s = (PacketState.UNSEQUENCED, p) := by
  unfold peer_analyse_reliable
  rw [if_neg h1, if_pos h2]

theorem ackDropWalk_suffix (ack : Nat) (l : List Packet) :
    ∃ removed, l = removed ++ ackDropWalk ack l ∧
      (∀ q ∈ removed, ackRemovable ack q) ∧
      (∀ q, (ackDropWalk ack l).head? = some q → ¬ ackRemovable ack q) := by
  induction l with
  | nil =>
    exact ⟨[], by simp [ackDropWalk], by simp, by simp [ackDropWalk]⟩
  | cons pkt rest ih =>
    by_cases h1 : pkt.optReliable = true ∧ pkt.optRetransmitted = true
    · by_cases h2 : d16 pkt.reliable ack > 0
      · refine ⟨[], by simp [ackDropWalk, h1, h2], by simp, ?_⟩
        intro q hq
        rw [ackDropWalk, if_neg (by simpa using h1), if_pos h2] at hq
        simp only [List.head?_cons, Option.some.injEq] at hq
        subst hq
        intro hrm
        exact absurd hrm.2.2 (by omega)
      · obtain ⟨removed, hpre, hall, hhead⟩ := ih
        have hw : ackDropWalk ack (pkt :: rest) = ackDropWalk ack rest := by
          rw [ackDropWalk, if_neg (by simpa using h1), if_neg h2]
        refine ⟨pkt :: removed, ?_, ?_, ?_⟩
        · rw [hw]; simpa using hpre
        · intro q hq
          rcases List.mem_cons.1 hq with hq | hq
          · subst hq; exact ⟨h1.1, h1.2, by omega⟩
          · exact hall q hq
        · rw [hw]; exact hhead
    · refine ⟨[], by simp [ackDropWalk, h1], by simp, ?_⟩
      intro q hq
      rw [ackDropWalk, if_pos (by simpa using h1)] at hq
      simp only [List.head?_cons, Option.some.injEq] at hq
      subst hq
      intro hrm
      exact h1 ⟨hrm.1, hrm.2.1⟩

/- Claim theorems. -/

/-- C1: a reliable packet with sequence `s` is RETRANSMITTED when
`s = in_rel`, SEQUENCED when `s = (uint16)(in_rel + 1)` (then `in_rel` is
set to `s` and `in_unrel` reset to 0), and UNSEQUENCED otherwise; in
particular with `in_rel = 0xFFFF` a reliable sequence 0x0000 is SEQUENCED. -/
theorem c1_reliable_classification (p : Peer) (s : Nat) :
    (s = p.in_seq_reliable →
      peer_analyse_reliable p s = (PacketState.RETRANSMITTED, p)) ∧
    (s ≠ p.in_seq_reliable → s = u16 (p.in_seq_reliable + 1) →
      peer_analyse_reliable p s =
        (PacketState.SEQUENCED,
          { p with in_seq_reliable := s, in_seq_unreliable := 0 })) ∧
    (s ≠ p.in_seq_reliable → s ≠ u16 (p.in_seq_reliable + 1) →
      peer_analyse_reliable p s = (PacketState.UNSEQUENCED, p)) ∧
    (p.in_seq_reliable = 65535 →
      (peer_analyse_reliable p 0).1 = PacketState.SEQUENCED) := by
  refine ⟨?_, ?_, ?_, ?_⟩
  · intro h; exact analyse_rel_retrans p s h.symm
  · intro h1 h2; exact analyse_rel_seq p s (fun hc => h1 hc.symm) h2.symm
  · intro h1 h2; exact analyse_rel_unseq p s (fun hc => h1 hc.symm) (fun hc => h2 hc.symm)
  · intro h
    rw [analyse_rel_seq p 0 (by rw [h]; decide) (by rw [h]; decide)]

/-- Witness for C1 at the wrap boundary: the freshly reset peer has
`in_rel = 0xFFFF`, and a reliable packet with sequence 0 is SEQUENCED. -/
theorem c1_reliable_classification_witness :
    peer_analyse_reliable (rudp_peer_reset 0 0) 0 =
      (PacketState.SEQUENCED,
        { rudp_peer_reset 0 0 with in_seq_reliable := 0, in_seq_unreliable := 0 }) :=
  (c1_reliable_classification (rudp_peer_reset 0 0) 0).2.1 (by decide) (by decide)

/-- C2: an accepted ack (neither stale nor past `out_rel`) sets
`out_acked = ack` and removes exactly a prefix of the send queue — every
removed entry is reliable, already retransmitted, and `≤ ack` under signed
16-bit comparison; the walk stops at the first entry failing any of those
predicates (so a reliable entry never transmitted survives), and the
remaining entries are the untouched suffix. -/
theorem c2_ack_prefix_removal (p : Peer) (ack : Nat)
    (h1 : ¬ d16 ack p.out_seq_acked < 0)
    (h2 : ¬ d16 ack p.out_seq_reliable > 0) :
    peer_handle_ack p ack =
      (false, { p with out_seq_acked := ack, sendq := ackDropWalk ack p.sendq }) ∧
    ∃ removed,
      p.sendq = removed ++ (peer_handle_ack p ack).2.sendq ∧
      (∀ q ∈ removed, ackRemovable ack q) ∧
      (∀ q, (peer_handle_ack p ack).2.sendq.head? = some q →
        ¬ ackRemovable ack q) := by
  have he : peer_handle_ack p ack =
      (false, { p with out_seq_acked := ack, sendq := ackDropWalk ack p.sendq }) := by
    unfold peer_handle_ack
    rw [if_neg h1, if_neg h2]
  refine ⟨he, ?_⟩
  rw [he]
  exact ackDropWalk_suffix ack p.sendq

/-- Witness for C2: with `out_acked = 4`, `out_rel = 6` and the queue
holding a transmitted entry (seq 5) followed by an untransmitted one
(seq 6), an ack of 6 removes only the transmitted head. -/
theorem c2_ack_prefix_removal_witness :
    peer_handle_ack exAckPeer 6 =
      (false,
        { exAckPeer with
            out_seq_acked := 6
            sendq := ackDropWalk 6 exAckPeer.sendq }) ∧
    ackDropWalk 6 exAckPeer.sendq = [exField6] :=
  ⟨(c2_ack_prefix_removal exAckPeer 6 (by decide) (by decide)).1, by decide⟩

/-- C8: an unreliable packet is UNSEQUENCED when its reliable epoch differs
from `in_rel`, UNSEQUENCED when the signed 16-bit delta of its unreliable
sequence against `in_unrel` is ≤ 0 (duplicate or old), and SEQUENCED with
`in_unrel` updated for any positive delta, not only +1. -/
theorem c8_unreliable_classification (p : Peer) (rs us : Nat) :
    (p.in_seq_reliable ≠ rs →
      peer_analyse_unreliable p rs us = (PacketState.UNSEQUENCED, p)) ∧
    (p.in_seq_reliable = rs → d16 us p.in_seq_unreliable ≤ 0 →
      peer_analyse_unreliable p rs us = (PacketState.UNSEQUENCED, p)) ∧
    (p.in_seq_reliable = rs → 0 < d16 us p.in_seq_unreliable →
      peer_analyse_unreliable p rs us =
        (PacketState.SEQUENCED, { p with in_seq_unreliable := us })) := by
  refine ⟨?_, ?_, ?_⟩
  · intro h
    unfold peer_analyse_unreliable
    rw [if_pos h]
  · intro h1 h2
    unfold peer_analyse_unreliable
    rw [if_neg (by simp [h1]), if_pos h2]
  · intro h1 h2
    unfold peer_analyse_unreliable
    rw [if_neg (by simp [h1]), if_neg (by omega)]

/-- Witness for C8 (scenario S3): with `in_rel = 1`, `in_unrel = 3`, a
duplicate unreliable sequence 2 arriving after 3 is dropped as
UNSEQUENCED. -/
theorem c8_unreliable_classification_witness :
    peer_analyse_unreliable
        { rudp_peer_reset 0 0 with in_seq_reliable := 1, in_seq_unreliable := 3 }
        1 2 =
      (PacketState.UNSEQUENCED,
        { rudp_peer_reset 0 0 with in_seq_reliable := 1, in_seq_unreliable := 3 }) :=
  (c8_unreliable_classification
    { rudp_peer_reset 0 0 with in_seq_reliable := 1, in_seq_unreliable := 3 }
    1 2).2.1 (by decide) (by decide)

theorem classified_err_zero (now : Int) (p1 : Peer) (pkt : Packet) :
    (peer_incoming_classified now p1 pkt).err = 0 := by
  unfold peer_incoming_classified
  split
  · rfl
  · rfl
  · split <;> rfl

theorem incoming_err_zero (now : Int) (p : Peer) (pkt : Packet)
    (h : (if pkt.optAck then peer_handle_ack p pkt.reliable_ack
          else (false, p)).1 = false) :
    (rudp_peer_incoming_packet now p pkt).err = 0 := by
  unfold rudp_peer_incoming_packet
  simp only [h, Bool.false_eq_true, if_false]
  exact classified_err_zero now _ pkt

/-- C3 counterexample: with `out_acked = 0` and `out_rel = 0x4000`, an ack
of 0x8001 has a positive signed delta against `out_rel`, yet the engine
ignores it silently (the stale-ack test fires first) instead of rejecting
the packet with an INVALID error as the claim requires. -/
theorem c3_counterexample :
    d16 exStalePkt.reliable_ack exStalePeer.out_seq_reliable > 0 ∧
    rudp_peer_incoming_packet 0 exStalePeer exStalePkt =
      { err := 0, peer := exStalePeer, droppedFired := false,
        appDelivered := false } := by
  decide

/-- C3 amended: the stale test has precedence — when the signed delta
`ack - out_acked` is negative the ack is ignored silently (no state
change, packet processed normally with a zero return); only otherwise
does a positive signed delta `ack - out_rel` reject the whole packet with
EINVAL and leave the peer untouched. -/
theorem c3_ack_stale_precedence (now : Int) (p : Peer) (pkt : Packet)
    (hack : pkt.optAck = true) :
    (d16 pkt.reliable_ack p.out_seq_acked < 0 →
      peer_handle_ack p pkt.reliable_ack = (false, p) ∧
      (rudp_peer_incoming_packet now p pkt).err = 0) ∧
    (¬ d16 pkt.reliable_ack p.out_seq_acked < 0 →
      d16 pkt.reliable_ack p.out_seq_reliable > 0 →
      rudp_peer_incoming_packet now p pkt =
        { err := EINVAL, peer := p, droppedFired := false,
          appDelivered := false }) := by
  constructor
  · intro hstale
    have ha : peer_handle_ack p pkt.reliable_ack = (false, p) := by
      unfold peer_handle_ack
      rw [if_pos hstale]
    exact ⟨ha, incoming_err_zero now p pkt (by simp [hack, ha])⟩
  · intro hstale hadv
    have ha : peer_handle_ack p pkt.reliable_ack = (true, p) := by
      unfold peer_handle_ack
      rw [if_neg hstale, if_pos hadv]
    unfold rudp_peer_incoming_packet
    simp [hack, ha]

/-- Witness for the amended C3: a non-stale ack past `out_rel` on a peer
with `out_acked = 9`, `out_rel = 10` rejects the packet with EINVAL and
leaves the peer unchanged. -/
theorem c3_ack_stale_precedence_witness :
    rudp_peer_incoming_packet 0 exRunPeer exBrokenAckPkt =
      { err := EINVAL, peer := exRunPeer, droppedFired := false,
        appDelivered := false } :=
  (c3_ack_stale_precedence 0 exRunPeer exBrokenAckPkt (by decide)).2
    (by decide) (by decide)

/-- C4 counterexample: servicing a peer past its drop deadline fires the
dropped handler but does not set the lifecycle state to DEAD — the state
field is left as it was (here RUN); teardown is delegated to the
handler. -/
theorem c4_counterexample :
    (peer_service 10 exDeadlinePeer).droppedFired = true ∧
    ¬ (peer_service 10 exDeadlinePeer).peer.state = PeerState.DEAD := by
  decide

/-- C4 amended: whenever the service routine runs strictly past the drop
deadline, the dropped handler is invoked and no further work is done in
that invocation — no ping is enqueued, no queued packet is transmitted,
and the peer (including its lifecycle state, which is not set to DEAD by
the engine) is returned unchanged. -/
theorem c4_drop_deadline (now : Int) (p : Peer)
    (h : p.abs_timeout_deadline < now) :
    peer_service now p =
      { peer := p, droppedFired := true, sent := [], pinged := false } := by
  unfold peer_service
  rw [if_pos h]

/-- Witness for the amended C4: deadline 5, serviced at 10. -/
theorem c4_drop_deadline_witness :
    peer_service 10 exDeadlinePeer =
      { peer := exDeadlinePeer, droppedFired := true, sent := [],
        pinged := false } :=
  c4_drop_deadline 10 exDeadlinePeer (by decide)

theorem clip_delta (now D raw : Int) :
    now + (if (if D - now < raw then D - now else raw) ≤ 0 then 1
           else if D - now < raw then D - now else raw) =
    max (now + 1) (min (now + raw) D) := by
  simp only [Int.min_def, Int.max_def]
  split_ifs <;> omega

/-- C5 counterexample: with the retransmitted head, `last_out_time = 0` and
`rto = 3000`, a recomputation at `now = 1000` schedules the wake at 5000 —
`now + (now − last_out_time) + rto` — not at `last_out_time + rto = 3000`
as the claim states. -/
theorem c5_counterexample :
    exSchedPeer.sendq.head? = some exRetransHead ∧
    exRetransHead.optRetransmitted = true ∧
    exSchedPeer.last_out_time + exSchedPeer.rto = 3000 ∧
    scheduleWake 1000 exSchedPeer = 5000 ∧
    scheduleWake 1000 exSchedPeer ≠
      exSchedPeer.last_out_time + exSchedPeer.rto := by
  decide

/-- C5 amended: with a retransmitted head the wake is at
`now + (now − last_out_time) + rto` (the elapsed time is added, not
subtracted); an untransmitted head wakes immediately and an empty queue at
`now + ACTION_TIMEOUT`; the delay is clipped by the drop deadline and then
raised to a 1 ms minimum, so the wake never precedes `now + 1` and exceeds
the drop deadline only when the deadline is less than 1 ms away. -/
theorem c5_schedule_wake (now : Int) (p : Peer) :
    (∀ head rest, p.sendq = head :: rest → head.optRetransmitted = true →
      scheduleWake now p =
        max (now + 1) (min (now + (now - p.last_out_time + p.rto))
          p.abs_timeout_deadline)) ∧
    (∀ head rest, p.sendq = head :: rest → head.optRetransmitted = false →
      scheduleWake now p = max (now + 1) (min now p.abs_timeout_deadline)) ∧
    (p.sendq = [] →
      scheduleWake now p =
        max (now + 1) (min (now + ACTION_TIMEOUT) p.abs_timeout_deadline)) ∧
    now + 1 ≤ scheduleWake now p ∧
    (now + 1 ≤ p.abs_timeout_deadline →
      scheduleWake now p ≤ p.abs_timeout_deadline) := by
  have hex : ∃ R : Int, scheduleWake now p =
      max (now + 1) (min (now + R) p.abs_timeout_deadline) := by
    rcases hq : p.sendq with _ | ⟨head, rest⟩
    · refine ⟨ACTION_TIMEOUT, ?_⟩
      simp only [scheduleWake, peer_service_schedule_delta, hq]
      exact clip_delta now p.abs_timeout_deadline ACTION_TIMEOUT
    · cases hre : head.optRetransmitted
      · refine ⟨0, ?_⟩
        simp only [scheduleWake, peer_service_schedule_delta, hq, hre,
          Bool.false_eq_true, if_false]
        exact clip_delta now p.abs_timeout_deadline 0
      · refine ⟨now - p.last_out_time + p.rto, ?_⟩
        simp only [scheduleWake, peer_service_schedule_delta, hq, hre, if_true]
        exact clip_delta now p.abs_timeout_deadline (now - p.last_out_time + p.rto)
  obtain ⟨R, hR⟩ := hex
  refine ⟨?_, ?_, ?_, ?_, ?_⟩
  · intro head rest hq hre
    simp only [scheduleWake, peer_service_schedule_delta, hq, hre, if_true]
    exact clip_delta now p.abs_timeout_deadline (now - p.last_out_time + p.rto)
  · intro head rest hq hre
    simp only [scheduleWake, peer_service_schedule_delta, hq, hre,
      Bool.false_eq_true, if_false]
    have := clip_delta now p.abs_timeout_deadline 0
    simpa using this
  · intro hq
    simp only [scheduleWake, peer_service_schedule_delta, hq]
    exact clip_delta now p.abs_timeout_deadline ACTION_TIMEOUT
  · rw [hR]
    simp only [Int.min_def, Int.max_def]
    split_ifs <;> omega
  · intro hD
    rw [hR]
    simp only [Int.min_def, Int.max_def]
    split_ifs <;> omega

/-- Witness for the amended C5: the retransmitted-head case at `now = 1000`
evaluates to the clipped wake formula. -/
theorem c5_schedule_wake_witness :
    scheduleWake 1000 exSchedPeer =
      max (1000 + 1)
        (min (1000 + (1000 - exSchedPeer.last_out_time + exSchedPeer.rto))
          exSchedPeer.abs_timeout_deadline) :=
  (c5_schedule_wake 1000 exSchedPeer).1 exRetransHead [] (by decide) (by decide)

/-- C6 counterexample: a stray unreliable NOOP processed while the shell is
still CONNECTING returns success from the engine, so the shell fires the
`connected` handler even though the peer never left CONNECTING. -/
theorem c6_counterexample :
    exConnectingClient.peer.state = PeerState.CONNECTING ∧
    (client_handle_endpoint_packet 0 5 exConnectingClient
        exStrayNoop).connectedFired = true ∧
    (client_handle_endpoint_packet 0 5 exConnectingClient
        exStrayNoop).client.peer.state = PeerState.CONNECTING := by
  decide

/-- C6 amended: the shell fires `connected` exactly when the engine returns
success and the `connected` flag is clear after any drop handling — the
peer's resulting state is not consulted; firing sets the flag, so while the
flag stays set (no drop) the handler cannot fire again. -/
theorem c6_connected_fire_condition (now : Int) (rnd : Nat) (c : Client)
    (pkt : Packet) :
    ((client_handle_endpoint_packet now rnd c pkt).connectedFired = true ↔
      ((rudp_peer_incoming_packet now c.peer pkt).err = 0 ∧
        ((rudp_peer_incoming_packet now c.peer pkt).droppedFired = true ∨
          c.connected = false))) ∧
    ((client_handle_endpoint_packet now rnd c pkt).connectedFired = true →
      (client_handle_endpoint_packet now rnd c pkt).client.connected = true) ∧
    (c.connected = true →
      (rudp_peer_incoming_packet now c.peer pkt).droppedFired = false →
      (client_handle_endpoint_packet now rnd c pkt).connectedFired = false) := by
  unfold client_handle_endpoint_packet
  by_cases hd : (rudp_peer_incoming_packet now c.peer pkt).droppedFired = true <;>
    by_cases he : (rudp_peer_incoming_packet now c.peer pkt).err = 0 <;>
      by_cases hc : c.connected = true <;>
        simp_all

/-- Witness for the amended C6: with the `connected` flag already set and
no drop, a further successfully processed datagram does not fire the
handler again. -/
theorem c6_connected_fire_condition_witness :
    (client_handle_endpoint_packet 0 5
        { exConnectingClient with connected := true }
        exStrayNoop).connectedFired = false :=
  (c6_connected_fire_condition 0 5
    { exConnectingClient with connected := true } exStrayNoop).2.2
    (by decide) (by decide)

/-- C7: an unknown-source datagram creates a peer engine iff it is exactly
a well-formed CONN_REQ (exact conn-req length and command); anything else
is discarded with the collection unchanged. A created engine is fed the
CONN_REQ: on success it is kept in the collection and `peer_new` fires; on
rejection it is forgotten and no handler fires. -/
theorem c7_demux_conn_req (now : Int) (rnd : Nat) (peers : List (Nat × Peer))
    (addr : Nat) (pkt : Packet)
    (h : rudp_server_peer_lookup peers addr = none) :
    ((server_handle_endpoint_packet now rnd peers addr pkt).created = true ↔
      (pkt.len = connReqSize ∧ pkt.command = RUDP_CMD_CONN_REQ)) ∧
    (¬ (pkt.len = connReqSize ∧ pkt.command = RUDP_CMD_CONN_REQ) →
      server_handle_endpoint_packet now rnd peers addr pkt =
        { peers := peers, peerNewFired := false, peerDroppedFired := false,
          created := false }) ∧
    (pkt.len = connReqSize → pkt.command = RUDP_CMD_CONN_REQ →
      (rudp_peer_incoming_packet now (rudp_peer_reset now rnd) pkt).err = 0 →
      server_handle_endpoint_packet now rnd peers addr pkt =
        { peers := (addr,
            (rudp_peer_incoming_packet now (rudp_peer_reset now rnd) pkt).peer)
            :: peers,
          peerNewFired := true, peerDroppedFired := false, created := true }) ∧
    (pkt.len = connReqSize → pkt.command = RUDP_CMD_CONN_REQ →
      (rudp_peer_incoming_packet now (rudp_peer_reset now rnd) pkt).err ≠ 0 →
      server_handle_endpoint_packet now rnd peers addr pkt =
        { peers := peers, peerNewFired := false, peerDroppedFired := false,
          created := true }) := by
  by_cases hwf : pkt.len = connReqSize ∧ pkt.command = RUDP_CMD_CONN_REQ
  · by_cases herr :
      (rudp_peer_incoming_packet now (rudp_peer_reset now rnd) pkt).err = 0 <;>
      simp_all [server_handle_endpoint_packet, h]
  · have hne : pkt.len ≠ connReqSize ∨ pkt.command ≠ RUDP_CMD_CONN_REQ := by
      tauto
    simp_all [server_handle_endpoint_packet, h]

/-- Witness for C7: a well-formed CONN_REQ from unknown address 7 on an
empty collection creates and keeps a peer and fires `peer_new`. -/
theorem c7_demux_conn_req_witness :
    server_handle_endpoint_packet 0 9 [] 7 exConnReq =
      { peers := [(7,
          (rudp_peer_incoming_packet 0 (rudp_peer_reset 0 9) exConnReq).peer)],
        peerNewFired := true, peerDroppedFired := false, created := true } :=
  (c7_demux_conn_req 0 9 [] 7 exConnReq (by rfl)).2.2.1
    (by decide) (by decide) (by decide)

theorem ack_stage_not_broken (p : Peer) (pkt : Packet)
    (h : pkt.optAck = true → (peer_handle_ack p pkt.reliable_ack).1 = false) :
    (if pkt.optAck then peer_handle_ack p pkt.reliable_ack else (false, p)) =
      (false, postAckPeer p pkt) := by
  unfold postAckPeer
  by_cases hA : pkt.optAck = true
  · simp only [hA, if_true]
    exact Prod.ext (h hA) rfl
  · simp [hA]

theorem incoming_not_broken (now : Int) (p : Peer) (pkt : Packet)
    (h : pkt.optAck = true → (peer_handle_ack p pkt.reliable_ack).1 = false) :
    rudp_peer_incoming_packet now p pkt =
      peer_incoming_classified now (postAckPeer p pkt) pkt := by
  unfold rudp_peer_incoming_packet
  rw [ack_stage_not_broken p pkt h]
  rfl

theorem peer_handle_ack_keeps (p : Peer) (a : Nat) :
    (peer_handle_ack p a).2.state = p.state ∧
    (peer_handle_ack p a).2.in_seq_reliable = p.in_seq_reliable ∧
    (peer_handle_ack p a).2.in_seq_unreliable = p.in_seq_unreliable ∧
    (peer_handle_ack p a).2.must_ack = p.must_ack := by
  unfold peer_handle_ack
  split_ifs <;> simp

theorem postAckPeer_keeps (p : Peer) (pkt : Packet) :
    (postAckPeer p pkt).state = p.state ∧
    (postAckPeer p pkt).in_seq_reliable = p.in_seq_reliable ∧
    (postAckPeer p pkt).must_ack = p.must_ack := by
  unfold postAckPeer
  split_ifs
  · exact ⟨(peer_handle_ack_keeps p pkt.reliable_ack).1,
      (peer_handle_ack_keeps p pkt.reliable_ack).2.1,
      (peer_handle_ack_keeps p pkt.reliable_ack).2.2.2⟩
  · exact ⟨rfl, rfl, rfl⟩

theorem analyse_rel_keeps (p : Peer) (s : Nat) :
    (peer_analyse_reliable p s).2.must_ack = p.must_ack ∧
    (peer_analyse_reliable p s).2.state = p.state ∧
    (peer_analyse_reliable p s).2.sendq = p.sendq := by
  unfold peer_analyse_reliable
  split_ifs <;> simp

theorem peer_post_ack_spec (p : Peer) :
    (peer_post_ack p).must_ack = true ∧
    (peer_post_ack p).sendq ≠ [] ∧
    ((peer_post_ack p).sendq = p.sendq ∨
      (p.sendq = [] ∧
        (peer_post_ack p).sendq.countP
          (fun q => q.command == RUDP_CMD_PONG) = 0)) := by
  by_cases h : p.sendq = [] <;>
    simp [peer_post_ack, rudp_peer_send_unreliable, h, List.countP_cons,
      RUDP_CMD_NOOP, RUDP_CMD_PONG]

theorem finish_reliable_peer (p : Peer) (pkt : Packet) (d a : Bool)
    (hrel : pkt.optReliable = true) :
    (peer_incoming_finish p pkt d a).peer = peer_post_ack p := by
  unfold peer_incoming_finish
  rw [if_pos hrel]

theorem classified_seq_close (now : Int) (p1 p2 : Peer) (pkt : Packet)
    (h : (if pkt.optReliable then peer_analyse_reliable p1 pkt.reliable
          else peer_analyse_unreliable p1 pkt.reliable pkt.unreliable) =
         (PacketState.SEQUENCED, p2))
    (hclose : pkt.command = RUDP_CMD_CLOSE) :
    peer_incoming_classified now p1 pkt =
      { err := 0,
        peer := { p2 with
                    abs_timeout_deadline := now + DROP_TIMEOUT
                    state := PeerState.DEAD },
        droppedFired := true, appDelivered := false } := by
  unfold peer_incoming_classified
  rw [h]
  simp [hclose]

theorem classified_seq_notclose_spec (now : Int) (p1 p2 : Peer)
    (pkt : Packet)
    (h : (if pkt.optReliable then peer_analyse_reliable p1 pkt.reliable
          else peer_analyse_unreliable p1 pkt.reliable pkt.unreliable) =
         (PacketState.SEQUENCED, p2))
    (hrel : pkt.optReliable = true)
    (hnc : pkt.command ≠ RUDP_CMD_CLOSE) :
    (peer_incoming_classified now p1 pkt).err = 0 ∧
    (peer_incoming_classified now p1 pkt).peer.must_ack = true ∧
    (peer_incoming_classified now p1 pkt).peer.sendq ≠ [] := by
  have hred : peer_incoming_classified now p1 pkt =
      peer_incoming_finish
        (if pkt.command = RUDP_CMD_PING then
          (if p2.state = PeerState.RUN then
            peer_handle_ping
              { p2 with abs_timeout_deadline := now + DROP_TIMEOUT } pkt
           else { p2 with abs_timeout_deadline := now + DROP_TIMEOUT })
         else if pkt.command = RUDP_CMD_PONG then
          (if p2.state = PeerState.RUN then
            peer_handle_pong now
              { p2 with abs_timeout_deadline := now + DROP_TIMEOUT } pkt
           else { p2 with abs_timeout_deadline := now + DROP_TIMEOUT })
         else { p2 with abs_timeout_deadline := now + DROP_TIMEOUT })
        pkt false
        (decide (p2.state = PeerState.RUN ∧ RUDP_CMD_APP ≤ pkt.command)) := by
    unfold peer_incoming_classified
    rw [h]
    simp [if_neg hnc]
  rw [hred, finish_reliable_peer _ pkt _ _ hrel]
  exact ⟨rfl, (peer_post_ack_spec _).1, (peer_post_ack_spec _).2.1⟩

theorem classified_unseq (now : Int) (p1 p2 : Peer) (pkt : Packet)
    (h : (if pkt.optReliable then peer_analyse_reliable p1 pkt.reliable
          else peer_analyse_unreliable p1 pkt.reliable pkt.unreliable) =
         (PacketState.UNSEQUENCED, p2)) :
    peer_incoming_classified now p1 pkt =
      peer_incoming_finish
        (if p2.state = PeerState.NEW ∧ pkt.command = RUDP_CMD_CONN_REQ then
          { peer_handle_connreq p2 with
              in_seq_reliable := pkt.reliable, state := PeerState.RUN }
         else if p2.state = PeerState.CONNECTING
                 ∧ pkt.command = RUDP_CMD_CONN_RSP then
          { (peer_handle_ack { p2 with in_seq_reliable := pkt.reliable }
              pkt.reliable_ack).2 with state := PeerState.RUN }
         else
          p2)
        pkt false false := by
  unfold peer_incoming_classified
  rw [h]

theorem classified_seq_ping_run (now : Int) (p1 p2 : Peer) (pkt : Packet)
    (h : (if pkt.optReliable then peer_analyse_reliable p1 pkt.reliable
          else peer_analyse_unreliable p1 pkt.reliable pkt.unreliable) =
         (PacketState.SEQUENCED, p2))
    (hcmd : pkt.command = RUDP_CMD_PING)
    (hrun : p2.state = PeerState.RUN) :
    peer_incoming_classified now p1 pkt =
      peer_incoming_finish
        (peer_handle_ping
          { p2 with abs_timeout_deadline := now + DROP_TIMEOUT } pkt)
        pkt false false := by
  unfold peer_incoming_classified
  rw [h]
  simp only [hcmd, RUDP_CMD_PING, RUDP_CMD_CLOSE, RUDP_CMD_PONG, RUDP_CMD_APP,
    hrun]
  norm_num

theorem classified_retrans (now : Int) (p1 p2 : Peer) (pkt : Packet)
    (h : (if pkt.optReliable then peer_analyse_reliable p1 pkt.reliable
          else peer_analyse_unreliable p1 pkt.reliable pkt.unreliable) =
         (PacketState.RETRANSMITTED, p2)) :
    peer_incoming_classified now p1 pkt =
      peer_incoming_finish
        { p2 with abs_timeout_deadline := now + DROP_TIMEOUT } pkt
        false false := by
  unfold peer_incoming_classified
  rw [h]

theorem handle_ping_fresh (q : Peer) (pkt : Packet)
    (h : pkt.optRetransmitted = false) :
    peer_handle_ping q pkt =
      rudp_peer_send_unreliable q RUDP_CMD_PONG
        (pkt.payload.take (pkt.len - headerSize)) pkt.len := by
  unfold peer_handle_ping
  rw [h]
  rfl

theorem handle_ping_retrans (q : Peer) (pkt : Packet)
    (h : pkt.optRetransmitted = true) :
    peer_handle_ping q pkt = q := by
  unfold peer_handle_ping
  rw [h]
  rfl

theorem send_unreliable_sendq (q : Peer) (cmd : Nat) (pl : List Nat)
    (ln : Nat) :
    (rudp_peer_send_unreliable q cmd pl ln).sendq =
      q.sendq ++
        [{ command := cmd, optReliable := false, optAck := false,
           optRetransmitted := false, reliable_ack := 0,
           reliable := q.out_seq_reliable,
           unreliable := u16 (q.out_seq_unreliable + 1),
           payload := pl, len := ln }] := rfl

theorem post_ack_nonempty (q : Peer) (h : q.sendq ≠ []) :
    peer_post_ack q = { q with must_ack := true } := by
  unfold peer_post_ack
  rw [if_neg h]

/-- C9: a SEQUENCED reliable PING received in state RUN: with the
RETRANSMITTED flag clear, exactly one unreliable PONG echoing the PING's
payload verbatim is appended to the send queue; with the flag set, no PONG
is enqueued (the PONG count of the queue is unchanged); in both cases the
packet is accepted and `must_ack` is set, so an ACK is scheduled. -/
theorem c9_ping_pong (now : Int) (p : Peer) (pkt : Packet)
    (hrun : p.state = PeerState.RUN)
    (hcmd : pkt.command = RUDP_CMD_PING)
    (hrel : pkt.optReliable = true)
    (hok : pkt.optAck = true → (peer_handle_ack p pkt.reliable_ack).1 = false)
    (hne : p.in_seq_reliable ≠ pkt.reliable)
    (hseq : u16 (p.in_seq_reliable + 1) = pkt.reliable)
    (hlen : pkt.len = pkt.payload.length + headerSize) :
    (rudp_peer_incoming_packet now p pkt).err = 0 ∧
    (rudp_peer_incoming_packet now p pkt).peer.must_ack = true ∧
    (pkt.optRetransmitted = false →
      ∃ pong,
        (rudp_peer_incoming_packet now p pkt).peer.sendq =
          (postAckPeer p pkt).sendq ++ [pong] ∧
        pong.command = RUDP_CMD_PONG ∧
        pong.optReliable = false ∧
        pong.payload = pkt.payload) ∧
    (pkt.optRetransmitted = true →
      (rudp_peer_incoming_packet now p pkt).peer.sendq.countP
          (fun q => q.command == RUDP_CMD_PONG) =
        (postAckPeer p pkt).sendq.countP
          (fun q => q.command == RUDP_CMD_PONG)) := by
  have hkeep := postAckPeer_keeps p pkt
  have hclass : (if pkt.optReliable then
        peer_analyse_reliable (postAckPeer p pkt) pkt.reliable
      else peer_analyse_unreliable (postAckPeer p pkt) pkt.reliable
        pkt.unreliable) =
      (PacketState.SEQUENCED,
        { postAckPeer p pkt with
            in_seq_reliable := pkt.reliable, in_seq_unreliable := 0 }) := by
    rw [if_pos hrel]
    exact analyse_rel_seq (postAckPeer p pkt) pkt.reliable
      (by rw [hkeep.2.1]; exact hne) (by rw [hkeep.2.1]; exact hseq)
  have hrun2 : ({ postAckPeer p pkt with
      in_seq_reliable := pkt.reliable, in_seq_unreliable := 0 } : Peer).state
      = PeerState.RUN := by
    show (postAckPeer p pkt).state = PeerState.RUN
    rw [hkeep.1]
    exact hrun
  have hmain : rudp_peer_incoming_packet now p pkt =
      peer_incoming_finish
        (peer_handle_ping
          { postAckPeer p pkt with
              in_seq_reliable := pkt.reliable, in_seq_unreliable := 0,
              abs_timeout_deadline := now + DROP_TIMEOUT } pkt)
        pkt false false := by
    rw [incoming_not_broken now p pkt hok]
    exact classified_seq_ping_run now (postAckPeer p pkt) _ pkt hclass hcmd hrun2
  refine ⟨by rw [hmain]; rfl, ?_, ?_, ?_⟩
  · rw [hmain, finish_reliable_peer _ pkt _ _ hrel]
    exact (peer_post_ack_spec _).1
  · intro hre
    have htake : pkt.payload.take (pkt.len - headerSize) = pkt.payload := by
      rw [hlen]
      simp
    rw [hmain, finish_reliable_peer _ pkt _ _ hrel, handle_ping_fresh _ pkt hre]
    have hne2 : (rudp_peer_send_unreliable
        { postAckPeer p pkt with
            in_seq_reliable := pkt.reliable, in_seq_unreliable := 0,
            abs_timeout_deadline := now + DROP_TIMEOUT }
        RUDP_CMD_PONG (pkt.payload.take (pkt.len - headerSize))
        pkt.len).sendq ≠ [] := by
      rw [send_unreliable_sendq]
      simp
    rw [post_ack_nonempty _ hne2]
    refine ⟨{ command := RUDP_CMD_PONG
              optReliable := false
              optAck := false
              optRetransmitted := false
              reliable_ack := 0
              reliable := (postAckPeer p pkt).out_seq_reliable
              unreliable := u16 ((postAckPeer p pkt).out_seq_unreliable + 1)
              payload := pkt.payload.take (pkt.len - headerSize)
              len := pkt.len }, ?_, rfl, rfl, htake⟩
    rfl
  · intro hre
    rw [hmain, finish_reliable_peer _ pkt _ _ hrel, handle_ping_retrans _ pkt hre]
    rcases (peer_post_ack_spec
        ({ postAckPeer p pkt with
            in_seq_reliable := pkt.reliable, in_seq_unreliable := 0,
            abs_timeout_deadline := now + DROP_TIMEOUT } : Peer)).2.2 with
      hsame | ⟨hemp, hcnt⟩
    · rw [hsame]
    · rw [hcnt]
      have hpost : (postAckPeer p pkt).sendq = [] := hemp
      rw [hpost]
      rfl

/-- Witness for C9: a fresh sequenced PING at a running peer yields exactly
one echoed PONG and sets `must_ack`. -/
theorem c9_ping_pong_witness :
    (rudp_peer_incoming_packet 0 exRunPeer exPing).peer.must_ack = true ∧
    (∃ pong,
      (rudp_peer_incoming_packet 0 exRunPeer exPing).peer.sendq =
        (postAckPeer exRunPeer exPing).sendq ++ [pong] ∧
      pong.command = RUDP_CMD_PONG ∧ pong.optReliable = false ∧
      pong.payload = exPing.payload) :=
  ⟨(c9_ping_pong 0 exRunPeer exPing (by decide) (by decide) (by decide)
      (by decide) (by decide) (by decide) (by decide)).2.1,
    (c9_ping_pong 0 exRunPeer exPing (by decide) (by decide) (by decide)
      (by decide) (by decide) (by decide) (by decide)).2.2.1 (by decide)⟩

/-- C10 counterexample: a reliable NOOP whose piggybacked ack is broken is
rejected before the ack post, so `must_ack` is not set even though the
packet carries the RELIABLE flag and is not a SEQUENCED CLOSE — a second
exception the claim does not allow. -/
theorem c10_counterexample :
    exBrokenAckPkt.optReliable = true ∧
    exBrokenAckPkt.command ≠ RUDP_CMD_CLOSE ∧
    (rudp_peer_incoming_packet 0 exRunPeer exBrokenAckPkt).peer.must_ack
      = false ∧
    (rudp_peer_incoming_packet 0 exRunPeer exBrokenAckPkt).err = EINVAL := by
  decide

/-- C10 amended: a reliable packet that survives the ACK stage always gets
`must_ack` set (with a NOOP enqueued as carrier when the queue is empty, so
the resulting queue is never empty) — regardless of classification —
except a SEQUENCED CLOSE, whose handler returns before the ack post, so a
reliable CLOSE that kills the peer is never acknowledged; packets rejected
for a broken ACK never reach the ack post either. -/
theorem c10_reliable_ack_post (now : Int) (p : Peer) (pkt : Packet)
    (hrel : pkt.optReliable = true)
    (hok : pkt.optAck = true → (peer_handle_ack p pkt.reliable_ack).1 = false) :
    ((peer_analyse_reliable (postAckPeer p pkt) pkt.reliable).1 =
        PacketState.SEQUENCED → pkt.command = RUDP_CMD_CLOSE →
      (rudp_peer_incoming_packet now p pkt).peer.must_ack = p.must_ack ∧
      (rudp_peer_incoming_packet now p pkt).droppedFired = true ∧
      (rudp_peer_incoming_packet now p pkt).peer.state = PeerState.DEAD) ∧
    (¬ ((peer_analyse_reliable (postAckPeer p pkt) pkt.reliable).1 =
          PacketState.SEQUENCED ∧ pkt.command = RUDP_CMD_CLOSE) →
      (rudp_peer_incoming_packet now p pkt).err = 0 ∧
      (rudp_peer_incoming_packet now p pkt).peer.must_ack = true ∧
      (rudp_peer_incoming_packet now p pkt).peer.sendq ≠ []) := by
  have hmain := incoming_not_broken now p pkt hok
  rcases hcl : peer_analyse_reliable (postAckPeer p pkt) pkt.reliable with
    ⟨st, p2⟩
  have hif : (if pkt.optReliable then
        peer_analyse_reliable (postAckPeer p pkt) pkt.reliable
      else peer_analyse_unreliable (postAckPeer p pkt) pkt.reliable
        pkt.unreliable) = (st, p2) := by
    rw [if_pos hrel, hcl]
  have hmk : p2.must_ack = p.must_ack := by
    have h1 := (analyse_rel_keeps (postAckPeer p pkt) pkt.reliable).1
    rw [hcl] at h1
    simpa using h1.trans (postAckPeer_keeps p pkt).2.2
  cases st with
  | SEQUENCED =>
    by_cases hclose : pkt.command = RUDP_CMD_CLOSE
    · have heq := classified_seq_close now (postAckPeer p pkt) p2 pkt hif hclose
      rw [heq] at hmain
      constructor
      · intro _ _
        rw [hmain]
        refine ⟨?_, rfl, rfl⟩
        show p2.must_ack = p.must_ack
        exact hmk
      · intro hcon
        exact absurd ⟨rfl, hclose⟩ hcon
    · constructor
      · intro _ hc
        exact absurd hc hclose
      · intro _
        have hspec := classified_seq_notclose_spec now (postAckPeer p pkt) p2
          pkt hif hrel hclose
        rw [hmain]
        exact hspec
  | UNSEQUENCED =>
    constructor
    · intro hs _
      exact absurd (show PacketState.UNSEQUENCED = PacketState.SEQUENCED from hs)
        (by decide)
    · intro _
      have heq := classified_unseq now (postAckPeer p pkt) p2 pkt hif
      rw [heq] at hmain
      refine ⟨?_, ?_, ?_⟩
      · rw [hmain]
        rfl
      · rw [hmain, finish_reliable_peer _ pkt _ _ hrel]
        exact (peer_post_ack_spec _).1
      · rw [hmain, finish_reliable_peer _ pkt _ _ hrel]
        exact (peer_post_ack_spec _).2.1
  | RETRANSMITTED =>
    constructor
    · intro hs _
      exact absurd (show PacketState.RETRANSMITTED = PacketState.SEQUENCED from hs)
        (by decide)
    · intro _
      have heq := classified_retrans now (postAckPeer p pkt) p2 pkt hif
      rw [heq] at hmain
      refine ⟨?_, ?_, ?_⟩
      · rw [hmain]
        rfl
      · rw [hmain, finish_reliable_peer _ pkt _ _ hrel]
        exact (peer_post_ack_spec _).1
      · rw [hmain, finish_reliable_peer _ pkt _ _ hrel]
        exact (peer_post_ack_spec _).2.1

/-- Witness for the amended C10: a sequenced reliable NOOP at a running
peer with an empty queue is accepted, sets `must_ack`, and leaves a
non-empty queue (the NOOP ack carrier). -/
theorem c10_reliable_ack_post_witness :
    (rudp_peer_incoming_packet 0 exRunPeer exReliableNoop).err = 0 ∧
    (rudp_peer_incoming_packet 0 exRunPeer exReliableNoop).peer.must_ack
      = true ∧
    (rudp_peer_incoming_packet 0 exRunPeer exReliableNoop).peer.sendq ≠ [] :=
  (c10_reliable_ack_post 0 exRunPeer exReliableNoop (by decide)
    (by decide)).2 (by decide)

end Rudp

